import Mathlib

/-!
Verification of the `objforces` kinematics library (`src/lib.rs`).

Scalars are idealized as real numbers: every `ℝ` value plays the role of a
finite `f64`, and the floating-point arithmetic of the source is modelled by
exact real arithmetic.  Where the source explicitly branches on IEEE
finiteness (`f64::is_finite` on the constructor's weight and on `addforce`'s
time argument) the scalar is wrapped in `F64`, which distinguishes a finite
value from NaN and the two infinities, so those guards are represented
faithfully.  `libm`'s `sqrt`, `cos`, `sin`, `pow` become `Real.sqrt`,
`Real.cos`, `Real.sin` and `(· ^ ·)`.
-/

/-- A 64-bit float as branched on by the source's `is_finite` guards:
either a finite value (idealized as a real number), NaN, or ±∞. -/
inductive F64 where
  | num : ℝ → F64
  | nan : F64
  | posInf : F64
  | negInf : F64

/-- Rust `f64::is_finite`: true exactly on finite values. -/
def F64.isFinite : F64 → Bool
  | F64.num _ => true
  | _ => false

/-- `Places` from the source: a point of the 3D axis (`pub struct Places`). -/
structure Places where
  x : ℝ
  y : ℝ
  z : ℝ

/-- `Axis` from the source: the 3-way axis tag (`pub enum Axis`). -/
inductive Axis where
  | X
  | Y
  | Z
deriving DecidableEq

/-- `Places::new(x, y, z)` stores the three coordinates unchanged. -/
def Places.new (x y z : ℝ) : Places :=
  { x := x, y := y, z := z }

/-- Component of a `Places` selected by an `Axis` (statement helper mirroring
the source's `match axis` field selection). -/
def Places.get (p : Places) : Axis → ℝ
  | Axis.X => p.x
  | Axis.Y => p.y
  | Axis.Z => p.z

/-- `Object` from the source: position, speed and acceleration vectors and a
scalar weight.  The weight keeps the `F64` wrapper because the constructor
branches on its finiteness. -/
structure Object where
  position : Places
  speed : Places
  acceleration : Places
  weight : F64

/-- `Object::new`: the three vectors are stored as given; the weight is kept
as-is when it is NOT finite and replaced by `1.0` when it is finite
(`let weight = if !weight.is_finite() { weight } else { 1.0 };`). -/
def Object.new (position speed acceleration : Places) (weight : F64) : Object :=
  { position := position
    speed := speed
    acceleration := acceleration
    weight := if weight.isFinite then F64.num 1 else weight }

/-- `Object::overtime(time)`: per-axis kinematic projection
`acceleration * time²* 0.5 + speed * time + position`, returning a fresh
`Places` and leaving the object untouched. -/
def Object.overtime (o : Object) (time : ℝ) : Places :=
  { x := o.acceleration.x * time * time * 0.5 + o.speed.x * time + o.position.x
    y := o.acceleration.y * time * time * 0.5 + o.speed.y * time + o.position.y
    z := o.acceleration.z * time * time * 0.5 + o.speed.z * time + o.position.z }

/-- `Object::overtime_mut(time)`: the same arithmetic written back into
`position`, one coordinate after the other, exactly as the source assigns
`self.position.x`, then `.y`, then `.z`. -/
def Object.overtime_mut (o : Object) (time : ℝ) : Object :=
  let o1 := { o with position := { o.position with
    x := o.acceleration.x * time * time * 0.5 + o.speed.x * time + o.position.x } }
  let o2 := { o1 with position := { o1.position with
    y := o1.acceleration.y * time * time * 0.5 + o1.speed.y * time + o1.position.y } }
  { o2 with position := { o2.position with
    z := o2.acceleration.z * time * time * 0.5 + o2.speed.z * time + o2.position.z } }

/-- `Object::hitzero()`: per-axis zero-crossing solve with
`a = 0.5 * acceleration`, `b = speed`, `c = position` and
`delta1 = pow(b, 2.0) - 4*a*c`.  When `a == 0.0` the linear solve `-c / b`;
otherwise a root chosen by the sign of `a`.  NOTE: the source parenthesizes
the X axis differently from Y and Z — on X it computes
`-b - sqrt(delta1) / (2.0 * a)` and `-b + sqrt(delta1) / (2.0 * a)`
(the division applies to the square root only), while on Y and Z it computes
`(-b - sqrt(delta1)) / (2.0 * a)` and `(-b + sqrt(delta1)) / (2.0 * a)`.
This definition reproduces that asymmetry exactly. -/
noncomputable def Object.hitzero (o : Object) : Places :=
  let ax := 0.5 * o.acceleration.x
  let bx := o.speed.x
  let cx := o.position.x
  let delta1x := bx ^ 2 - 4 * ax * cx
  let delta_x :=
    if ax = 0 then -cx / bx
    else if ax < 0 then -bx - (Real.sqrt delta1x / (2 * ax))
    else -bx + (Real.sqrt delta1x / (2 * ax))
  let ay := 0.5 * o.acceleration.y
  let by' := o.speed.y
  let cy := o.position.y
  let delta1y := by' ^ 2 - 4 * ay * cy
  let delta_y :=
    if ay = 0 then -cy / by'
    else if ay < 0 then (-by' - Real.sqrt delta1y) / (2 * ay)
    else (-by' + Real.sqrt delta1y) / (2 * ay)
  let az := 0.5 * o.acceleration.z
  let bz := o.speed.z
  let cz := o.position.z
  let delta1z := bz ^ 2 - 4 * az * cz
  let delta_z :=
    if az = 0 then -cz / bz
    else if az < 0 then (-bz - Real.sqrt delta1z) / (2 * az)
    else (-bz + Real.sqrt delta1z) / (2 * az)
  Places.new delta_x delta_y delta_z

/-- `Object::addforce(force, time, axis)`: returns early (no-op) when `time`
is not finite; with `time == 0.0` the acceleration component of `axis` is
incremented, otherwise the speed component, each by
`force / weight * (if time == 0.0 { 1.0 } else { time })`.  A non-finite
stored weight would make the source propagate IEEE specials into the updated
component; the real-number idealization has no such values, so that branch
leaves the object unchanged here (no claim exercises it — the weight itself
is never written either way). -/
noncomputable def Object.addforce (o : Object) (force : ℝ) (time : F64) (axis : Axis) : Object :=
  match time with
  | F64.num t =>
    match o.weight with
    | F64.num w =>
      let inc := force / w * (if t = 0 then 1 else t)
      if t = 0 then
        match axis with
        | Axis.X => { o with acceleration := { o.acceleration with x := o.acceleration.x + inc } }
        | Axis.Y => { o with acceleration := { o.acceleration with y := o.acceleration.y + inc } }
        | Axis.Z => { o with acceleration := { o.acceleration with z := o.acceleration.z + inc } }
      else
        match axis with
        | Axis.X => { o with speed := { o.speed with x := o.speed.x + inc } }
        | Axis.Y => { o with speed := { o.speed with y := o.speed.y + inc } }
        | Axis.Z => { o with speed := { o.speed with z := o.speed.z + inc } }
    | _ => o
  | _ => o

/-- `Object::transverseforce(force, degrees)`:
`(force * cos(degrees/360.0), force * sin(degrees/360.0))`. -/
noncomputable def Object.transverseforce (_o : Object) (force degrees : ℝ) : ℝ × ℝ :=
  (force * Real.cos (degrees / 360), force * Real.sin (degrees / 360))

/-- One call of the public API of `Object`.  The mutating methods
(`overtime_mut`, `addforce`) carry their arguments; `overtime`, `hitzero` and
`transverseforce` take `&self` in the source and cannot write any field. -/
inductive Call where
  | overtimeMut : ℝ → Call
  | addForce : ℝ → F64 → Axis → Call
  | overtimeCall : ℝ → Call
  | hitzeroCall : Call
  | transverseCall : ℝ → ℝ → Call

/-- Effect of one API call on the object's state: the two `&mut self` methods
update the state, the three `&self` methods leave it unchanged. -/
noncomputable def applyCall (o : Object) : Call → Object
  | Call.overtimeMut t => o.overtime_mut t
  | Call.addForce f t ax => o.addforce f t ax
  | Call.overtimeCall _ => o
  | Call.hitzeroCall => o
  | Call.transverseCall _ _ => o

/- ------------------------------------------------------------------ -/
/- Helper lemmas                                                       -/
/- ------------------------------------------------------------------ -/

lemma addforce_weight (o : Object) (f : ℝ) (t : F64) (ax : Axis) :
    (o.addforce f t ax).weight = o.weight := by
  cases t with
  | num x =>
    cases hw : o.weight with
    | num w =>
      by_cases hx : x = 0 <;> cases ax <;>
        simp [Object.addforce, hw, hx]
    | nan => simp [Object.addforce, hw]
    | posInf => simp [Object.addforce, hw]
    | negInf => simp [Object.addforce, hw]
  | nan => rfl
  | posInf => rfl
  | negInf => rfl

lemma applyCall_weight (o : Object) (c : Call) :
    (applyCall o c).weight = o.weight := by
  cases c with
  | overtimeMut t => rfl
  | addForce f t ax => exact addforce_weight o f t ax
  | overtimeCall t => rfl
  | hitzeroCall => rfl
  | transverseCall f d => rfl

lemma foldl_applyCall_weight (l : List Call) (o : Object) :
    (l.foldl applyCall o).weight = o.weight := by
  induction l generalizing o with
  | nil => rfl
  | cons c cs ih =>
    simpa [List.foldl, applyCall_weight] using ih (applyCall o c)

lemma sqrt_four : Real.sqrt 4 = 2 := by
  rw [show (4 : ℝ) = 2 ^ 2 by norm_num]
  exact Real.sqrt_sq (by norm_num)

/- ------------------------------------------------------------------ -/
/- Claims                                                              -/
/- ------------------------------------------------------------------ -/

/-- C3: `Object::new` stores the three supplied vectors as given; a
non-finite mass (NaN or ±∞) is stored as-is, while a finite mass is
discarded and replaced with `1.0`. -/
theorem objectNew_stores_vectors_inverted_mass_guard
    (p s a : Places) (w : F64) :
    (Object.new p s a w).position = p ∧
    (Object.new p s a w).speed = s ∧
    (Object.new p s a w).acceleration = a ∧
    (w.isFinite = false → (Object.new p s a w).weight = w) ∧
    (w.isFinite = true → (Object.new p s a w).weight = F64.num 1) := by
  refine ⟨rfl, rfl, rfl, ?_, ?_⟩ <;> intro h <;> simp [Object.new, h]

/-- Witness for C3: at the concrete inputs `NaN` and `5.0` the two mass
branches produce `NaN` and `1.0` respectively. -/
theorem objectNew_stores_vectors_inverted_mass_guard_witness :
    (Object.new (Places.new 1 2 3) (Places.new 4 5 6) (Places.new 7 8 9)
        F64.nan).weight = F64.nan ∧
    (Object.new (Places.new 1 2 3) (Places.new 4 5 6) (Places.new 7 8 9)
        (F64.num 5)).weight = F64.num 1 :=
  ⟨(objectNew_stores_vectors_inverted_mass_guard (Places.new 1 2 3)
      (Places.new 4 5 6) (Places.new 7 8 9) F64.nan).2.2.2.1 rfl,
   (objectNew_stores_vectors_inverted_mass_guard (Places.new 1 2 3)
      (Places.new 4 5 6) (Places.new 7 8 9) (F64.num 5)).2.2.2.2 rfl⟩

/-- C5: the position after `overtime_mut(t)` is exactly the `Places` that
`overtime(t)` returns on the pre-mutation state. -/
theorem overtimeMut_position_eq_overtime (o : Object) (t : ℝ) :
    (o.overtime_mut t).position = o.overtime t := rfl

/-- C6: `overtime(0.0)` returns the object's current position (all model
values are the idealization of finite floats). -/
theorem overtime_zero_eq_position (o : Object) :
    o.overtime 0 = o.position := by
  obtain ⟨⟨px, py, pz⟩, sp, ac, w⟩ := o
  simp [Object.overtime]

/-- C9: `overtime_mut` writes only `position`: the speed vector, the
acceleration vector and the weight are exactly unchanged. -/
theorem overtimeMut_frame (o : Object) (t : ℝ) :
    (o.overtime_mut t).speed = o.speed ∧
    (o.overtime_mut t).acceleration = o.acceleration ∧
    (o.overtime_mut t).weight = o.weight :=
  ⟨rfl, rfl, rfl⟩

/-- C8: `transverseforce(force, degrees)` is exactly
`(force * cos(degrees/360), force * sin(degrees/360))` for the model's trig
functions, and at zero angle the round trip holds: the first component is
`force` and the second is `0`. -/
theorem transverseforce_formula (o : Object) (f d : ℝ) :
    o.transverseforce f d = (f * Real.cos (d / 360), f * Real.sin (d / 360)) ∧
    (o.transverseforce f 0).1 = f ∧
    (o.transverseforce f 0).2 = 0 := by
  refine ⟨rfl, ?_, ?_⟩ <;> simp [Object.transverseforce]

/-- C4: `addforce` with a non-finite time argument (NaN, +∞ or −∞) is a
no-op: the object is returned exactly as it was. -/
theorem addforce_nonfinite_time_noop (o : Object) (f : ℝ) (t : F64) (ax : Axis)
    (h : t.isFinite = false) : o.addforce f t ax = o := by
  cases t with
  | num x => simp [F64.isFinite] at h
  | nan => rfl
  | posInf => rfl
  | negInf => rfl

/-- Witness for C4: a concrete object is unchanged by `addforce` at time
`NaN`. -/
theorem addforce_nonfinite_time_noop_witness :
    (Object.new (Places.new 1 2 3) (Places.new 4 5 6) (Places.new 7 8 9)
        (F64.num 5)).addforce 10 F64.nan Axis.Y
      = Object.new (Places.new 1 2 3) (Places.new 4 5 6) (Places.new 7 8 9)
          (F64.num 5) :=
  addforce_nonfinite_time_noop _ 10 F64.nan Axis.Y rfl

/-- Counterexample for C2: an object constructed with mass `5.0` has its
mass replaced by `1.0`, so `addforce(10.0, 0.0, Y)` on a zero-acceleration
object yields `acceleration.y == 10.0`, not `2.0` as the claim states. -/
theorem addforce_mass5_concrete_counterexample :
    ((Object.new (Places.new 0 0 0) (Places.new 0 0 0) (Places.new 0 0 0)
        (F64.num 5)).addforce 10 (F64.num 0) Axis.Y).acceleration.y ≠ 2 := by
  norm_num [Object.new, Object.addforce, F64.isFinite, Places.new]

/-- C2 (amended): `addforce(force, 0.0, axis)` on an object whose stored
weight is the finite value `w` increments only the acceleration component of
`axis`, by `force / w`, leaving every other field unchanged; the concrete
case constructed with mass `5.0` (stored as `1.0`) and zero initial
acceleration yields `acceleration.y == 10.0` after `addforce(10.0, 0.0, Y)`. -/
theorem addforce_zero_time_increments_acceleration
    (o : Object) (f w : ℝ) (ax : Axis) (h : o.weight = F64.num w) :
    ((o.addforce f (F64.num 0) ax).acceleration.get ax
        = o.acceleration.get ax + f / w) ∧
    (∀ ax2 : Axis, ax2 ≠ ax →
        (o.addforce f (F64.num 0) ax).acceleration.get ax2
          = o.acceleration.get ax2) ∧
    (o.addforce f (F64.num 0) ax).position = o.position ∧
    (o.addforce f (F64.num 0) ax).speed = o.speed ∧
    (o.addforce f (F64.num 0) ax).weight = o.weight ∧
    ((Object.new (Places.new 0 0 0) (Places.new 0 0 0) (Places.new 0 0 0)
        (F64.num 5)).addforce 10 (F64.num 0) Axis.Y).acceleration.y = 10 := by
  refine ⟨?_, ?_, ?_, ?_, ?_, ?_⟩
  · cases ax <;> simp [Object.addforce, h, Places.get]
  · intro ax2 hne
    cases ax <;> cases ax2 <;>
      simp_all [Object.addforce, h, Places.get]
  · cases ax <;> simp [Object.addforce, h]
  · cases ax <;> simp [Object.addforce, h]
  · cases ax <;> simp [Object.addforce, h]
  · norm_num [Object.new, Object.addforce, F64.isFinite, Places.new]

/-- Witness for C2 (amended): a concrete application with stored weight
`2.0`, force `6.0` and initial `acceleration.y = 4.0` gives `4 + 6/2 = 7`. -/
theorem addforce_zero_time_increments_acceleration_witness :
    ((Object.mk (Places.new 0 0 0) (Places.new 0 0 0) (Places.new 3 4 5)
        (F64.num 2)).addforce 6 (F64.num 0) Axis.Y).acceleration.y = 7 := by
  have h := (addforce_zero_time_increments_acceleration
      (Object.mk (Places.new 0 0 0) (Places.new 0 0 0) (Places.new 3 4 5)
        (F64.num 2)) 6 2 Axis.Y rfl).1
  norm_num [Places.get, Places.new] at h
  exact h

/-- C7: on an axis with zero acceleration and nonzero speed, `hitzero`
returns exactly `-position / speed` for that axis (the linear solve). -/
theorem hitzero_linear_case (o : Object) :
    (o.acceleration.x = 0 → o.speed.x ≠ 0 →
      (o.hitzero).x = -o.position.x / o.speed.x) ∧
    (o.acceleration.y = 0 → o.speed.y ≠ 0 →
      (o.hitzero).y = -o.position.y / o.speed.y) ∧
    (o.acceleration.z = 0 → o.speed.z ≠ 0 →
      (o.hitzero).z = -o.position.z / o.speed.z) := by
  refine ⟨?_, ?_, ?_⟩ <;> intro h hb <;> simp [Object.hitzero, h, Places.new]

/-- Witness for C7: zero acceleration, speed `(1, 2, 4)`, position
`(3, 5, 7)`: the X crossing time is `-3/1 = -3`. -/
theorem hitzero_linear_case_witness :
    ((Object.mk (Places.new 3 5 7) (Places.new 1 2 4) (Places.new 0 0 0)
        (F64.num 1)).hitzero).x = -3 := by
  have h := (hitzero_linear_case
      (Object.mk (Places.new 3 5 7) (Places.new 1 2 4) (Places.new 0 0 0)
        (F64.num 1))).1 rfl (by norm_num [Places.new])
  norm_num [Places.new] at h
  exact h

/-- C1: on the X axis the source computes `-b + sqrt(delta)/(2a)` — the
division applies to the square root alone, not to `(-b + sqrt(delta))` —
so with `a = 1`, `b = 2`, `c = 0` (acceleration.x `2`, speed.x `2`,
position.x `0`) the code returns `-1` while the claimed formula
`(-b + sqrt(b^2 - 4ac)) / (2a)` gives `0`.  (Y and Z do match the claimed
formula; X does not.) -/
theorem hitzero_x_axis_diverges_from_quadratic_formula :
    ((Object.mk (Places.new 0 0 0) (Places.new 2 0 0) (Places.new 2 0 0)
        (F64.num 1)).hitzero).x = -1 ∧
    (-(2 : ℝ) + Real.sqrt (2 ^ 2 - 4 * (0.5 * 2) * 0)) / (2 * (0.5 * 2)) = 0 := by
  constructor
  · norm_num [Object.hitzero, Places.new, sqrt_four]
  · norm_num [sqrt_four]

/-- C10: the weight stored by the constructor is never modified by any
sequence of calls to `overtime`, `overtime_mut`, `hitzero`, `addforce` and
`transverseforce`. -/
theorem weight_never_modified (p s a : Places) (w : F64) (calls : List Call) :
    (calls.foldl applyCall (Object.new p s a w)).weight
      = (Object.new p s a w).weight :=
  foldl_applyCall_weight calls (Object.new p s a w)
